import Mathlib

/-!
# Verification of the domain-checker core

A shallow embedding of `src/app/api/check-domains/route.ts`: the cascade
resolver `checkDomainWithFallbacks`, the sequential batch runner
`checkDomainsWithRateLimit`, and the SSE stream body of `POST`, together
with proofs of the specification's testable properties.

Network responses are modelled by an environment `Env` assigning to each
queried name the outcome of each of the four probes (system DNS, Google
DNS, Cloudflare DNS, HTTP HEAD probe).  Numeric progress values are
modelled exactly, in `ℚ`.
-/

namespace DomainChecker

/-- Status of a domain check (`DomainResult.status` in the source). -/
inductive Status where
  | Available
  | Taken
  | Error
deriving DecidableEq

/-- The source's `interface DomainResult`: `error` is the optional cause
string (`error?: string`). -/
structure DomainResult where
  domain : String
  tld : String
  status : Status
  error : Option String := none
deriving DecidableEq

/-- The source's `interface CheckResult` (outcome of one probe stage). -/
structure CheckResult where
  success : Bool
  method : String := ""
  error : Option String := none
deriving DecidableEq

/-- The four network stages the resolver can consult, in the source:
system-default `tryResolveAny`, `tryResolveAny` against 8.8.8.8/8.8.4.4,
`tryResolveAny` against 1.1.1.1/1.0.0.1, and `tryHttpCheck`. -/
inductive Stage where
  | systemDNS
  | googleDNS
  | cloudflareDNS
  | httpProbe
deriving DecidableEq

/-- Whether a stage is one of the three DNS stages of the cascade. -/
def Stage.isDNS : Stage → Bool
  | .httpProbe => false
  | _ => true

/-- Environment: the outcome each probe stage would report for a given
queried fully-qualified name.  Models the network seen by one batch. -/
structure Env where
  systemDNS : String → CheckResult
  googleDNS : String → CheckResult
  cloudflareDNS : String → CheckResult
  httpCheck : String → CheckResult

/-- Outcome of a given stage in a given environment for a given name. -/
def stageOutcome (env : Env) (name : String) : Stage → CheckResult
  | .systemDNS => env.systemDNS name
  | .googleDNS => env.googleDNS name
  | .cloudflareDNS => env.cloudflareDNS name
  | .httpProbe => env.httpCheck name

/-- Char-list prefix test (`p == c && ...` mirrors `BEq` on `Char`). -/
def matchesAt : List Char → List Char → Bool
  | [], _ => true
  | _ :: _, [] => false
  | p :: ps, c :: cs => p == c && matchesAt ps cs

/-- Char-list substring test. -/
def containsSub (pat : List Char) : List Char → Bool
  | [] => pat.isEmpty
  | c :: cs => matchesAt pat (c :: cs) || containsSub pat cs

/-- JavaScript `s.includes(pat)`: substring containment on the character
sequence. -/
def strIncludes (s pat : String) : Bool := containsSub pat.data s.data

/-- JavaScript `tld.startsWith('.')`: for a single-character argument this
is a test on the first character of the string. -/
def startsWithDot (t : String) : Bool :=
  match t.data with
  | [] => false
  | c :: _ => c == '.'

/-- Line 82 of the source: `tld.startsWith('.') ? tld.slice(1) : tld`
(`slice(1)` drops the first character). -/
def normalizeTld (tld : String) : String :=
  if startsWithDot tld then tld.drop 1 else tld

/-- Line 83 of the source: the template string joining the domain and the
normalized TLD with a dot. -/
def fullDomainOf (domain tld : String) : String :=
  domain ++ "." ++ normalizeTld tld

/-- JavaScript `result.error || ''`: the error string, defaulting to empty
when absent. -/
def errOf (r : CheckResult) : String := r.error.getD ""

/-- JavaScript `s.trim()`: remove whitespace from both ends (structural
char-level form, equivalent to `String.trim`). -/
def strTrim (s : String) : String :=
  ⟨((s.data.dropWhile Char.isWhitespace).reverse.dropWhile Char.isWhitespace).reverse⟩

/-- The cascade `checkDomainWithFallbacks` (source lines 81–189), instrumented with the
ordered list of stages it actually consulted.  The control flow is a
verbatim transcription of the nested conditionals of the source. -/
def checkDomainWithFallbacks (env : Env) (domain tld : String) :
    DomainResult × List Stage :=
  let fullDomain := fullDomainOf domain tld
  let systemResult := env.systemDNS fullDomain
  if systemResult.success then
    ({ domain := domain, tld := tld, status := .Taken }, [.systemDNS])
  else
    let googleResult := env.googleDNS fullDomain
    if googleResult.success then
      ({ domain := domain, tld := tld, status := .Taken },
        [.systemDNS, .googleDNS])
    else
      let systemError := errOf systemResult
      let googleError := errOf googleResult
      let isTimeout :=
        strIncludes systemError "ETIMEOUT" && strIncludes googleError "ETIMEOUT"
      let isServerError :=
        strIncludes systemError "ESERVFAIL" && strIncludes googleError "ESERVFAIL"
      let isConnError :=
        strIncludes systemError "ECONNREFUSED" || strIncludes systemError "EAI_AGAIN"
      let googleNotFound :=
        strIncludes googleError "ENOTFOUND" || strIncludes googleError "ENODATA"
      if googleNotFound then
        let httpResult := env.httpCheck fullDomain
        if httpResult.success then
          ({ domain := domain, tld := tld, status := .Taken },
            [.systemDNS, .googleDNS, .httpProbe])
        else
          let httpError := errOf httpResult
          let httpConnRefused :=
            strIncludes httpError "ECONNREFUSED" ||
            strIncludes httpError "ENOTFOUND" ||
            strIncludes httpError "ENETUNREACH"
          if httpConnRefused then
            ({ domain := domain, tld := tld, status := .Available },
              [.systemDNS, .googleDNS, .httpProbe])
          else
            ({ domain := domain, tld := tld, status := .Error,
               error := some "HTTP timeout - try again later" },
              [.systemDNS, .googleDNS, .httpProbe])
      else if isTimeout || isServerError || isConnError then
        let cloudflareResult := env.cloudflareDNS fullDomain
        if cloudflareResult.success then
          ({ domain := domain, tld := tld, status := .Taken },
            [.systemDNS, .googleDNS, .cloudflareDNS])
        else
          let cloudflareError := errOf cloudflareResult
          let cloudflareNotFound :=
            strIncludes cloudflareError "ENOTFOUND" ||
            strIncludes cloudflareError "ENODATA"
          if cloudflareNotFound then
            let httpResult := env.httpCheck fullDomain
            if httpResult.success then
              ({ domain := domain, tld := tld, status := .Taken },
                [.systemDNS, .googleDNS, .cloudflareDNS, .httpProbe])
            else
              let httpError := errOf httpResult
              let httpConnRefused :=
                strIncludes httpError "ECONNREFUSED" ||
                strIncludes httpError "ENOTFOUND" ||
                strIncludes httpError "ENETUNREACH"
              if httpConnRefused then
                ({ domain := domain, tld := tld, status := .Available },
                  [.systemDNS, .googleDNS, .cloudflareDNS, .httpProbe])
              else
                ({ domain := domain, tld := tld, status := .Error,
                   error := some "HTTP timeout - try again later" },
                  [.systemDNS, .googleDNS, .cloudflareDNS, .httpProbe])
          else
            let errorMsg :=
              if isTimeout then "DNS timeout - try again later"
              else if isServerError then "DNS server error - try again later"
              else "DNS connection error - try again later"
            ({ domain := domain, tld := tld, status := .Error,
               error := some errorMsg },
              [.systemDNS, .googleDNS, .cloudflareDNS])
      else
        ({ domain := domain, tld := tld, status := .Error,
           error := some "DNS lookup failed" },
          [.systemDNS, .googleDNS])

/-- The wrapper `checkDomain` (source lines 191–193): the externally observable result
of the cascade. -/
def checkDomain (env : Env) (domain tld : String) : DomainResult :=
  (checkDomainWithFallbacks env domain tld).1

/-- Modelled from the spec: the §4.1 ErrorClassifier, a pure mapping from a
raw error string to a semantic category.  The indicator substrings are the
ones the code tests for (timeout `ETIMEOUT`, server failure `ESERVFAIL`,
connection refused / resolver unavailable `ECONNREFUSED`/`EAI_AGAIN`,
not-found / no-data `ENOTFOUND`/`ENODATA`), tried in the spec's rule
order.  The classifier exists in the source only as inline substring
tests; this named form is needed to state the spec's class-based claims. -/
inductive ErrorClass where
  | Timeout
  | ServerFailure
  | ConnectionError
  | NotFound
  | Unknown
deriving DecidableEq

/-- Modelled from the spec: classification rules of §4.1. -/
def classify (e : String) : ErrorClass :=
  if strIncludes e "ETIMEOUT" then .Timeout
  else if strIncludes e "ESERVFAIL" then .ServerFailure
  else if strIncludes e "ECONNREFUSED" || strIncludes e "EAI_AGAIN" then .ConnectionError
  else if strIncludes e "ENOTFOUND" || strIncludes e "ENODATA" then .NotFound
  else .Unknown

/-- Modelled from the spec: the transient classes of the glossary
(timeout, server failure, connection error). -/
def ErrorClass.transient : ErrorClass → Bool
  | .Timeout => true
  | .ServerFailure => true
  | .ConnectionError => true
  | .NotFound => false
  | .Unknown => false

/-- The exact condition under which the source escalates to the Cloudflare
resolver (lines 104–110 and 138), as a predicate of the two error strings
of the failed system and Google stages. -/
def escalatesToTertiary (systemError googleError : String) : Bool :=
  !(strIncludes googleError "ENOTFOUND" || strIncludes googleError "ENODATA") &&
  ((strIncludes systemError "ETIMEOUT" && strIncludes googleError "ETIMEOUT") ||
   (strIncludes systemError "ESERVFAIL" && strIncludes googleError "ESERVFAIL") ||
   (strIncludes systemError "ECONNREFUSED" || strIncludes systemError "EAI_AGAIN"))

/-- Accumulator state of the batch loop of `checkDomainsWithRateLimit`
(source lines 200–202): the `results` array, the `checksCompleted`
counter, and — for the stream model — the ordered list of values passed to
`onProgress`.  Progress values are modelled exactly, in `ℚ`. -/
structure BatchState where
  results : List DomainResult
  checksCompleted : Nat
  progress : List ℚ
deriving DecidableEq

/-- The empty accumulator the batch starts from. -/
def initialBatch : BatchState := ⟨[], 0, []⟩

/-- Outcome of running the batch loop: normal completion, or abrupt
termination by an uncaught exception carrying the state reached so far
(the source's loop has no per-pair `try`/`catch`, so a throw from
`checkDomain` propagates out of `checkDomainsWithRateLimit`). -/
inductive BatchOutcome where
  | ok (s : BatchState)
  | exn (s : BatchState) (msg : String)
deriving DecidableEq

/-- Sequencing of loop iterations: an exception short-circuits the rest of
the loop, as an uncaught JavaScript throw does. -/
def BatchOutcome.andThen (o : BatchOutcome) (f : BatchState → BatchOutcome) : BatchOutcome :=
  match o with
  | .exn s e => .exn s e
  | .ok s => f s

/-- One iteration of the inner loop body (source lines 206–211): resolve
the pair (with the domain trimmed at the call, line 206), append the
result, bump the counter, and emit `completed / total * 100`.  The 50 ms
rate-limiting delay (lines 214–216) has no observable effect in this
model and is elided. -/
def stepPair (resolve : String → String → Except String DomainResult)
    (total : Nat) (s : BatchState) (domain tld : String) : BatchOutcome :=
  match resolve (strTrim domain) tld with
  | .error e => .exn s e
  | .ok r =>
      .ok ⟨s.results ++ [r], s.checksCompleted + 1,
        s.progress ++ [((s.checksCompleted + 1 : ℚ) / (total : ℚ)) * 100]⟩

/-- The inner `for (const tld of tlds)` loop (source lines 205–217). -/
def runTlds (resolve : String → String → Except String DomainResult)
    (total : Nat) (domain : String) : List String → BatchState → BatchOutcome
  | [], s => .ok s
  | tld :: ts, s =>
      (stepPair resolve total s domain tld).andThen
        (fun s' => runTlds resolve total domain ts s')

/-- The outer `for (const domain of domains)` loop (source lines 204–218). -/
def runDomains (resolve : String → String → Except String DomainResult)
    (total : Nat) (tlds : List String) : List String → BatchState → BatchOutcome
  | [], s => .ok s
  | d :: ds, s =>
      (runTlds resolve total d tlds s).andThen
        (fun s' => runDomains resolve total tlds ds s')

/-- The batch runner `checkDomainsWithRateLimit` (source lines 195–221), generic over the
awaited resolver call so that a throwing resolution can be modelled; a
throw aborts the loop and propagates. -/
def checkDomainsWithRateLimit
    (resolve : String → String → Except String DomainResult)
    (domains tlds : List String) : BatchOutcome :=
  runDomains resolve (domains.length * tlds.length) tlds domains initialBatch

/-- The resolver that never throws: every call returns the cascade's
result, as in the source where `checkDomainWithFallbacks` converts every
stage failure into a resolved value. -/
def pureResolve (env : Env) : String → String → Except String DomainResult :=
  fun domain tld => .ok (checkDomain env domain tld)

/-- The batch runner under the never-throwing resolver. -/
def runBatch (env : Env) (domains tlds : List String) : BatchOutcome :=
  checkDomainsWithRateLimit (pureResolve env) domains tlds

/-- Server-sent events of one batch (source lines 248–266): `progress`,
terminal `complete` with the full result collection, terminal `error`
with a message. -/
inductive Event where
  | progress (p : ℚ)
  | complete (results : List DomainResult)
  | error (msg : String)
deriving DecidableEq

/-- Whether an event is terminal (`complete` or `error`). -/
def Event.isTerminal : Event → Bool
  | .progress _ => false
  | .complete _ => true
  | .error _ => true

/-- The ordered event stream the `POST` handler's `ReadableStream` body
enqueues (source lines 245–268): every `onProgress` call enqueues a
`progress` event; normal completion enqueues `complete` with the results;
an exception is caught and enqueues a single terminal `error` event with
the fixed message. -/
def streamEvents (resolve : String → String → Except String DomainResult)
    (domains tlds : List String) : List Event :=
  match checkDomainsWithRateLimit resolve domains tlds with
  | .ok s => s.progress.map Event.progress ++ [Event.complete s.results]
  | .exn s _ => s.progress.map Event.progress ++ [Event.error "Failed to check domains"]

/-! ## Basic lemmas about the resolver -/

/-- The resolver echoes its arguments: every result carries the `domain`
and `tld` it was asked about, verbatim. -/
lemma resolver_echo (env : Env) (domain tld : String) :
    (checkDomainWithFallbacks env domain tld).1.domain = domain ∧
    (checkDomainWithFallbacks env domain tld).1.tld = tld := by
  simp only [checkDomainWithFallbacks]
  split_ifs <;> exact ⟨rfl, rfl⟩

/-! ## Closed form of the batch loop -/

/-- A normally completed iteration continues the loop. -/
lemma andThen_ok (s : BatchState) (f : BatchState → BatchOutcome) :
    (BatchOutcome.ok s).andThen f = f s := rfl


/-- Closed form of the inner TLD loop under the never-throwing resolver. -/
lemma runTlds_pure (env : Env) (total : Nat) (domain : String) :
    ∀ (ts : List String) (s : BatchState),
    runTlds (pureResolve env) total domain ts s =
      .ok ⟨s.results ++ ts.map (fun t => checkDomain env (strTrim domain) t),
           s.checksCompleted + ts.length,
           s.progress ++ (List.range ts.length).map
             (fun j : ℕ => (((s.checksCompleted : ℚ) + (j : ℚ) + 1) / (total : ℚ)) * 100)⟩ := by
  intro ts
  induction ts with
  | nil => intro s; simp [runTlds]
  | cons t ts ih =>
      intro s
      simp only [runTlds, stepPair, pureResolve, andThen_ok]
      rw [ih]
      simp only [BatchOutcome.ok.injEq, BatchState.mk.injEq]
      refine ⟨by simp, by simp [List.length_cons]; omega, ?_⟩
      rw [List.append_assoc]
      congr 1
      rw [List.length_cons, List.range_succ_eq_map, List.map_cons, List.map_map,
        List.singleton_append]
      congr 1
      · norm_num
      · apply List.map_congr_left
        intro j _
        simp only [Function.comp_apply]
        push_cast
        ring

/-- Closed form of the outer domain loop under the never-throwing
resolver. -/
lemma runDomains_pure (env : Env) (total : Nat) (tlds : List String) :
    ∀ (ds : List String) (s : BatchState),
    runDomains (pureResolve env) total tlds ds s =
      .ok ⟨s.results ++ ds.flatMap (fun d => tlds.map (fun t => checkDomain env (strTrim d) t)),
           s.checksCompleted + ds.length * tlds.length,
           s.progress ++ (List.range (ds.length * tlds.length)).map
             (fun j : ℕ => (((s.checksCompleted : ℚ) + (j : ℚ) + 1) / (total : ℚ)) * 100)⟩ := by
  intro ds
  induction ds with
  | nil => intro s; simp [runDomains]
  | cons d ds ih =>
      intro s
      simp only [runDomains]
      rw [runTlds_pure, andThen_ok, ih]
      simp only [BatchOutcome.ok.injEq, BatchState.mk.injEq]
      refine ⟨by simp, by simp [List.length_cons]; ring, ?_⟩
      rw [List.append_assoc]
      congr 1
      have hsplit : (ds.length + 1) * tlds.length
          = tlds.length + ds.length * tlds.length := by ring
      rw [List.length_cons, hsplit, List.range_add, List.map_append, List.map_map]
      congr 1
      apply List.map_congr_left
      intro j _
      simp only [Function.comp_apply]
      push_cast
      ring

/-- Closed form of the whole batch under the never-throwing resolver: the
results are the domain-major cross product, the counter equals `D·T`, and
the progress values are `(k+1)/(D·T)·100` for `k = 0, …, D·T−1`, in
order. -/
lemma runBatch_eq (env : Env) (domains tlds : List String) :
    runBatch env domains tlds =
      .ok ⟨domains.flatMap (fun d => tlds.map (fun t => checkDomain env (strTrim d) t)),
           domains.length * tlds.length,
           (List.range (domains.length * tlds.length)).map
             (fun k : ℕ => (((k : ℚ) + 1) / ((domains.length * tlds.length : Nat) : ℚ)) * 100)⟩ := by
  rw [runBatch, checkDomainsWithRateLimit, runDomains_pure]
  simp only [BatchOutcome.ok.injEq, BatchState.mk.injEq, initialBatch]
  refine ⟨by simp, by simp, ?_⟩
  simp only [List.nil_append]
  apply List.map_congr_left
  intro j _
  norm_num

/-- The (domain, tld) keys of the batch's results form the cross product
of the trimmed domains with the TLDs, in domain-major order. -/
lemma crossResults_keys (env : Env) (tlds : List String) :
    ∀ domains : List String,
    (domains.flatMap (fun d => tlds.map (fun t => checkDomain env (strTrim d) t))).map
        (fun r => (r.domain, r.tld)) =
      (domains.map strTrim) ×ˢ tlds := by
  intro domains
  induction domains with
  | nil => simp
  | cons d ds ih =>
      simp only [List.flatMap_cons, List.map_append, List.map_cons, List.product_cons, ih]
      congr 1
      rw [List.map_map]
      apply List.map_congr_left
      intro t _
      simp only [Function.comp_apply, checkDomain]
      have h := resolver_echo env (strTrim d) t
      rw [h.1, h.2]

/-! ## Concrete environments and resolvers for witnesses -/

/-- A successful DNS answer. -/
def dnsOk : CheckResult := { success := true, method := "resolveAny" }

/-- A failed DNS lookup with the given error string. -/
def dnsErr (e : String) : CheckResult :=
  { success := false, method := "resolveAny", error := some e }

/-- A received HTTP response. -/
def httpOk : CheckResult := { success := true, method := "HTTP" }

/-- A failed HTTP probe with the given error string. -/
def httpErr (e : String) : CheckResult :=
  { success := false, method := "HTTP", error := some e }

/-- Every name resolves at the first DNS stage. -/
def envAllTaken : Env :=
  { systemDNS := fun _ => dnsOk
    googleDNS := fun _ => dnsOk
    cloudflareDNS := fun _ => dnsOk
    httpCheck := fun _ => httpOk }

/-- DNS reports not-found everywhere and the HTTP probe is refused: the
profile of a free domain. -/
def envAvailable : Env :=
  { systemDNS := fun _ => dnsErr "queryAny ENOTFOUND"
    googleDNS := fun _ => dnsErr "queryAny ENOTFOUND"
    cloudflareDNS := fun _ => dnsErr "queryAny ENOTFOUND"
    httpCheck := fun _ => httpErr "connect ECONNREFUSED" }

/-- DNS hides the record but a web server answers the HTTP probe. -/
def envHiddenWeb : Env :=
  { systemDNS := fun _ => dnsErr "queryAny ENODATA"
    googleDNS := fun _ => dnsErr "queryAny ENOTFOUND"
    cloudflareDNS := fun _ => dnsErr "queryAny ENOTFOUND"
    httpCheck := fun _ => httpOk }

/-- The system stage times out while the Google stage is refused: both
failures are transient classes, but of different kinds. -/
def envMixedTransient : Env :=
  { systemDNS := fun _ => dnsErr "queryAny ETIMEOUT"
    googleDNS := fun _ => dnsErr "queryAny ECONNREFUSED"
    cloudflareDNS := fun _ => dnsOk
    httpCheck := fun _ => httpOk }

/-- Every DNS stage times out. -/
def envAllTimeout : Env :=
  { systemDNS := fun _ => dnsErr "queryAny ETIMEOUT"
    googleDNS := fun _ => dnsErr "queryAny ETIMEOUT"
    cloudflareDNS := fun _ => dnsErr "queryAny ETIMEOUT"
    httpCheck := fun _ => httpErr "ETIMEOUT" }

/-- A resolver that throws an exception on the domain `alpha` and
resolves every other domain normally. -/
def throwingResolve : String → String → Except String DomainResult :=
  fun domain tld =>
    if domain = "alpha" then .error "unexpected failure"
    else .ok { domain := domain, tld := tld, status := .Taken }

/-- The terminal event the stream ends with, per batch outcome. -/
def terminalOf : BatchOutcome → Event
  | .ok s => .complete s.results
  | .exn _ _ => .error "Failed to check domains"

/-- On normal completion the stream is the progress events followed by
`complete` with the results. -/
lemma streamEvents_ok (resolve : String → String → Except String DomainResult)
    (domains tlds : List String) (s : BatchState)
    (h : checkDomainsWithRateLimit resolve domains tlds = .ok s) :
    streamEvents resolve domains tlds =
      s.progress.map Event.progress ++ [Event.complete s.results] := by
  unfold streamEvents
  rw [h]

/-- On an uncaught exception the stream is the progress events emitted so
far followed by the fixed `error` event. -/
lemma streamEvents_exn (resolve : String → String → Except String DomainResult)
    (domains tlds : List String) (s : BatchState) (m : String)
    (h : checkDomainsWithRateLimit resolve domains tlds = .exn s m) :
    streamEvents resolve domains tlds =
      s.progress.map Event.progress ++ [Event.error "Failed to check domains"] := by
  unfold streamEvents
  rw [h]

/-! ## Claims -/

/-- Claim C1: for every request with non-empty domain and TLD lists, the
batch produces exactly D·T results, one per (domain, tld) pair — no
duplicates (when the trimmed domains and the TLDs contain no repeats) and
no omissions — in domain-major cross-product order. -/
theorem c1_cross_product (env : Env) (domains tlds : List String)
    (hD : domains ≠ []) (hT : tlds ≠ []) :
    ∃ s : BatchState, runBatch env domains tlds = .ok s ∧
      s.results.length = domains.length * tlds.length ∧
      s.results = domains.flatMap (fun d => tlds.map (fun t => checkDomain env (strTrim d) t)) ∧
      ((domains.map strTrim).Nodup → tlds.Nodup →
        (s.results.map (fun r => (r.domain, r.tld))).Nodup) := by
  refine ⟨_, runBatch_eq env domains tlds, ?_, rfl, ?_⟩
  · rw [List.length_flatMap]
    simp [Function.comp_def, List.map_const', mul_comm]
  · intro hd ht
    rw [crossResults_keys]
    exact hd.product ht

/-- Witness for C1 at a concrete two-by-two request. -/
theorem c1_cross_product_witness :
    ((["alpha", "beta"] : List String) ≠ [] ∧ ([".com", ".io"] : List String) ≠ []) ∧
    (∃ s : BatchState, runBatch envAllTaken ["alpha", "beta"] [".com", ".io"] = .ok s ∧
      s.results.length = 2 * 2 ∧
      s.results = ["alpha", "beta"].flatMap
        (fun d => [".com", ".io"].map (fun t => checkDomain envAllTaken (strTrim d) t)) ∧
      (((["alpha", "beta"] : List String).map strTrim).Nodup → ([".com", ".io"] : List String).Nodup →
        (s.results.map (fun r => (r.domain, r.tld))).Nodup)) :=
  ⟨⟨by decide, by decide⟩,
    c1_cross_product envAllTaken ["alpha", "beta"] [".com", ".io"] (by decide) (by decide)⟩

/-- Length-T list of emitted progress values: `(k+1)/T·100`. -/
lemma progress_pairwise (T : ℕ) (hT : 0 < T) :
    ((List.range T).map (fun k : ℕ => (((k : ℚ) + 1) / ((T : ℕ) : ℚ)) * 100)).Pairwise (· < ·) := by
  have hT' : (0:ℚ) < (T:ℚ) := by exact_mod_cast hT
  refine (List.pairwise_lt_range _).map _ ?_
  intro a b hab
  have h1 : ((a:ℚ)+1) < (b:ℚ)+1 := by exact_mod_cast Nat.succ_lt_succ hab
  gcongr

/-- Every emitted progress value is strictly positive and at most 100. -/
lemma progress_bounds (T : ℕ) (hT : 0 < T) :
    ∀ p ∈ (List.range T).map (fun k : ℕ => (((k : ℚ) + 1) / ((T : ℕ) : ℚ)) * 100),
      0 < p ∧ p ≤ 100 := by
  have hT' : (0:ℚ) < (T:ℚ) := by exact_mod_cast hT
  intro p hp
  simp only [List.mem_map, List.mem_range] at hp
  obtain ⟨k, hk, rfl⟩ := hp
  constructor
  · have h0 : (0:ℚ) < (k:ℚ) + 1 := by positivity
    have := div_pos h0 hT'
    nlinarith
  · have hk1 : ((k:ℚ)+1) ≤ (T:ℚ) := by exact_mod_cast hk
    have hle : ((k:ℚ)+1)/(T:ℚ) ≤ 1 := (div_le_one hT').2 hk1
    nlinarith [div_pos (by positivity : (0:ℚ) < (k:ℚ)+1) hT']

/-- A progress value equals 100 exactly at the last position. -/
lemma progress_hundred_iff (T : ℕ) (hT : 0 < T) :
    ∀ (i : ℕ) (hi : i < ((List.range T).map
        (fun k : ℕ => (((k : ℚ) + 1) / ((T : ℕ) : ℚ)) * 100)).length),
      ((List.range T).map (fun k : ℕ => (((k : ℚ) + 1) / ((T : ℕ) : ℚ)) * 100)).get ⟨i, hi⟩ = 100 ↔
        i + 1 = ((List.range T).map (fun k : ℕ => (((k : ℚ) + 1) / ((T : ℕ) : ℚ)) * 100)).length := by
  have hT' : (0:ℚ) < (T:ℚ) := by exact_mod_cast hT
  intro i hi
  have hlen : ((List.range T).map
      (fun k : ℕ => (((k : ℚ) + 1) / ((T : ℕ) : ℚ)) * 100)).length = T := by simp
  conv_rhs => rw [hlen]
  rw [List.get_eq_getElem]
  simp only [List.getElem_map, List.getElem_range]
  constructor
  · intro h
    have h1 : ((i:ℚ)+1)/(T:ℚ) = 1 := by
      field_simp at h
      rw [div_eq_one_iff_eq (ne_of_gt hT')]
      linarith
    have h2 : ((i:ℚ)+1) = (T:ℚ) := by rwa [div_eq_one_iff_eq (ne_of_gt hT')] at h1
    exact_mod_cast h2
  · intro h
    have h2 : ((i:ℚ)+1) = (T:ℚ) := by exact_mod_cast h
    rw [h2, div_self (ne_of_gt hT'), one_mul]

/-- Claim C2, amended: within one batch every emitted progress value is a
rational — not in general an integer — percentage in (0, 100], the emitted
sequence is strictly increasing (hence monotonically non-decreasing), and
the value 100 is emitted exactly when the final (domain, tld) pair
completes. -/
theorem c2_progress_amended (env : Env) (domains tlds : List String)
    (hD : domains ≠ []) (hT : tlds ≠ []) :
    ∃ s : BatchState, runBatch env domains tlds = .ok s ∧
      s.progress.length = domains.length * tlds.length ∧
      s.progress.Pairwise (· < ·) ∧
      (∀ p ∈ s.progress, 0 < p ∧ p ≤ 100) ∧
      (∀ (i : ℕ) (hi : i < s.progress.length),
        s.progress.get ⟨i, hi⟩ = 100 ↔ i + 1 = s.progress.length) := by
  have htot : 0 < domains.length * tlds.length :=
    Nat.mul_pos (List.length_pos.2 hD) (List.length_pos.2 hT)
  exact ⟨_, runBatch_eq env domains tlds, by simp, progress_pairwise _ htot,
    progress_bounds _ htot, progress_hundred_iff _ htot⟩

/-- Witness for the amended C2 at a concrete one-by-one request. -/
theorem c2_progress_amended_witness :
    ((["alpha"] : List String) ≠ [] ∧ ([".com"] : List String) ≠ []) ∧
    (∃ s : BatchState, runBatch envAllTaken ["alpha"] [".com"] = .ok s ∧
      s.progress.length = 1 * 1 ∧
      s.progress.Pairwise (· < ·) ∧
      (∀ p ∈ s.progress, 0 < p ∧ p ≤ 100) ∧
      (∀ (i : ℕ) (hi : i < s.progress.length),
        s.progress.get ⟨i, hi⟩ = 100 ↔ i + 1 = s.progress.length)) :=
  ⟨⟨by decide, by decide⟩,
    c2_progress_amended envAllTaken ["alpha"] [".com"] (by decide) (by decide)⟩

/-- Counterexample to C2 as stated: with one domain and three TLDs the
first emitted progress value is 100/3, which is not an integer (its
reduced denominator is 3). -/
theorem c2_counterexample :
    ∃ s : BatchState, runBatch envAllTaken ["a"] [".com", ".net", ".org"] = .ok s ∧
      ∃ p ∈ s.progress, p.den ≠ 1 := by
  refine ⟨_, runBatch_eq _ _ _, (100/3 : ℚ), ?_, by norm_num⟩
  have hr : List.range ((["a"] : List String).length * ([".com", ".net", ".org"] : List String).length)
      = [0, 1, 2] := by decide
  rw [hr]
  simp only [List.map_cons, List.map_nil, List.mem_cons]
  left
  norm_num

/-- Counterexample to C3 as stated: with the system stage timing out
(`ETIMEOUT`, a transient class) and the Google stage refused
(`ECONNREFUSED`, also a transient class), both first stages fail with
transient classes, yet the code never consults the Cloudflare resolver —
it returns the generic `DNS lookup failed` error instead. -/
theorem c3_counterexample :
    (envMixedTransient.systemDNS "example.com").success = false ∧
    (envMixedTransient.googleDNS "example.com").success = false ∧
    (classify (errOf (envMixedTransient.systemDNS "example.com"))).transient = true ∧
    (classify (errOf (envMixedTransient.googleDNS "example.com"))).transient = true ∧
    Stage.cloudflareDNS ∉ (checkDomainWithFallbacks envMixedTransient "example" ".com").2 ∧
    (checkDomainWithFallbacks envMixedTransient "example" ".com").1.status = Status.Error := by
  decide

/-- Claim C3, amended: the resolver consults the tertiary (Cloudflare)
provider exactly when both of the first two DNS stages failed, the
secondary's error does not contain a not-found indicator, and either both
errors contain the timeout indicator, or both contain the server-failure
indicator, or the system error alone contains a connection-refused or
resolver-unavailable indicator — the secondary's class is not consulted
for the connection-error arm. -/
theorem c3_tertiary_amended (env : Env) (domain tld : String) :
    Stage.cloudflareDNS ∈ (checkDomainWithFallbacks env domain tld).2 ↔
      ((env.systemDNS (fullDomainOf domain tld)).success = false ∧
       (env.googleDNS (fullDomainOf domain tld)).success = false ∧
       escalatesToTertiary (errOf (env.systemDNS (fullDomainOf domain tld)))
         (errOf (env.googleDNS (fullDomainOf domain tld))) = true) := by
  simp only [checkDomainWithFallbacks, escalatesToTertiary]
  split_ifs <;> simp_all <;> (intro h1 h2; simp_all)

/-- Witness for the amended C3: when every DNS stage times out, the
tertiary stage is consulted. -/
theorem c3_tertiary_amended_witness :
    Stage.cloudflareDNS ∈ (checkDomainWithFallbacks envAllTimeout "example" ".com").2 ∧
    ((envAllTimeout.systemDNS (fullDomainOf "example" ".com")).success = false ∧
     (envAllTimeout.googleDNS (fullDomainOf "example" ".com")).success = false ∧
     escalatesToTertiary (errOf (envAllTimeout.systemDNS (fullDomainOf "example" ".com")))
       (errOf (envAllTimeout.googleDNS (fullDomainOf "example" ".com"))) = true) :=
  ⟨(c3_tertiary_amended envAllTimeout "example" ".com").2 ⟨by decide, by decide, by decide⟩,
   by decide, by decide, by decide⟩

/-- Counterexample to C4 as stated: when resolving the first pair throws,
the batch is aborted — no `Error` result is recorded for the throwing
pair, the remaining pair is never resolved (the result collection is
empty), and the stream ends with a terminal `error` event. -/
theorem c4_counterexample :
    checkDomainsWithRateLimit throwingResolve ["alpha", "beta"] [".com"] =
      .exn initialBatch "unexpected failure" ∧
    streamEvents throwingResolve ["alpha", "beta"] [".com"] =
      [.error "Failed to check domains"] := by
  decide

/-- When every TLD in the list resolves normally for this domain, the
inner loop completes, having recorded one result, one count and one
progress value per TLD. -/
lemma runTlds_all_ok (resolve : String → String → Except String DomainResult)
    (total : Nat) (d : String) :
    ∀ (ts : List String) (s0 : BatchState),
    (∀ t ∈ ts, ∃ r, resolve (strTrim d) t = .ok r) →
    ∃ s, runTlds resolve total d ts s0 = .ok s ∧
      s.results.length = s0.results.length + ts.length ∧
      s.checksCompleted = s0.checksCompleted + ts.length ∧
      s.progress.length = s0.progress.length + ts.length := by
  intro ts
  induction ts with
  | nil => exact fun s0 _ => ⟨s0, rfl, by simp, by simp, by simp⟩
  | cons t ts ih =>
      intro s0 h
      obtain ⟨r, hr⟩ := h t (by simp)
      obtain ⟨s, hs, h1, h2, h3⟩ := ih
        ⟨s0.results ++ [r], s0.checksCompleted + 1,
          s0.progress ++ [((s0.checksCompleted : ℚ) + 1) / (total : ℚ) * 100]⟩
        (fun t' ht' => h t' (by simp [ht']))
      refine ⟨s, ?_, by simp at h1 ⊢; omega, by simp at h2 ⊢; omega,
        by simp at h3 ⊢; omega⟩
      simp only [runTlds, stepPair, hr, BatchOutcome.andThen]
      exact hs

/-- If some TLD throws and every TLD before it resolves normally, the
inner loop aborts at the throwing TLD, having recorded exactly the
earlier TLDs. -/
lemma runTlds_exn_at (resolve : String → String → Except String DomainResult)
    (total : Nat) (d : String) :
    ∀ (ts₁ : List String) (t : String) (ts₂ : List String) (s0 : BatchState) (e : String),
    (∀ t' ∈ ts₁, ∃ r, resolve (strTrim d) t' = .ok r) →
    resolve (strTrim d) t = .error e →
    ∃ s, runTlds resolve total d (ts₁ ++ t :: ts₂) s0 = .exn s e ∧
      s.results.length = s0.results.length + ts₁.length ∧
      s.checksCompleted = s0.checksCompleted + ts₁.length ∧
      s.progress.length = s0.progress.length + ts₁.length := by
  intro ts₁
  induction ts₁ with
  | nil =>
      intro t ts₂ s0 e _ ht
      refine ⟨s0, ?_, by simp, by simp, by simp⟩
      simp only [List.nil_append, runTlds, stepPair, ht, BatchOutcome.andThen]
  | cons t' ts₁ ih =>
      intro t ts₂ s0 e h ht
      obtain ⟨r, hr⟩ := h t' (by simp)
      obtain ⟨s, hs, h1, h2, h3⟩ := ih t ts₂
        ⟨s0.results ++ [r], s0.checksCompleted + 1,
          s0.progress ++ [((s0.checksCompleted : ℚ) + 1) / (total : ℚ) * 100]⟩
        e (fun u hu => h u (by simp [hu])) ht
      refine ⟨s, ?_, by simp at h1 ⊢; omega, by simp at h2 ⊢; omega,
        by simp at h3 ⊢; omega⟩
      simp only [List.cons_append, runTlds, stepPair, hr, BatchOutcome.andThen]
      exact hs

/-- If some (domain, tld) pair of the cross product throws and every
pair before it (in domain-major order) resolves normally, the outer loop
aborts at the throwing pair, having recorded exactly the earlier pairs. -/
lemma runDomains_exn_at (resolve : String → String → Except String DomainResult)
    (total : Nat) (tlds : List String) :
    ∀ (ds₁ : List String) (d : String) (ds₂ : List String) (s0 : BatchState)
      (ts₁ : List String) (t : String) (ts₂ : List String) (e : String),
    tlds = ts₁ ++ t :: ts₂ →
    (∀ d' ∈ ds₁, ∀ t' ∈ tlds, ∃ r, resolve (strTrim d') t' = .ok r) →
    (∀ t' ∈ ts₁, ∃ r, resolve (strTrim d) t' = .ok r) →
    resolve (strTrim d) t = .error e →
    ∃ s, runDomains resolve total tlds (ds₁ ++ d :: ds₂) s0 = .exn s e ∧
      s.results.length = s0.results.length + ds₁.length * tlds.length + ts₁.length ∧
      s.checksCompleted = s0.checksCompleted + ds₁.length * tlds.length + ts₁.length ∧
      s.progress.length = s0.progress.length + ds₁.length * tlds.length + ts₁.length := by
  intro ds₁
  induction ds₁ with
  | nil =>
      intro d ds₂ s0 ts₁ t ts₂ e htl _ hmid hthrow
      subst htl
      obtain ⟨s, hs, h1, h2, h3⟩ :=
        runTlds_exn_at resolve total d ts₁ t ts₂ s0 e hmid hthrow
      refine ⟨s, ?_, by simpa using h1, by simpa using h2, by simpa using h3⟩
      simp only [List.nil_append, runDomains, hs, BatchOutcome.andThen]
  | cons d' ds₁ ih =>
      intro d ds₂ s0 ts₁ t ts₂ e htl hprev hmid hthrow
      obtain ⟨s1, hs1, g1, g2, g3⟩ := runTlds_all_ok resolve total d' tlds s0
        (fun t' ht' => hprev d' (by simp) t' ht')
      obtain ⟨s, hs, h1, h2, h3⟩ := ih d ds₂ s1 ts₁ t ts₂ e htl
        (fun d'' hd'' t' ht' => hprev d'' (by simp [hd'']) t' ht') hmid hthrow
      refine ⟨s, ?_, ?_, ?_, ?_⟩
      · simp only [List.cons_append, runDomains, hs1, BatchOutcome.andThen]
        exact hs
      · rw [h1, g1]
        simp only [List.length_cons]
        ring
      · rw [h2, g2]
        simp only [List.length_cons]
        ring
      · rw [h3, g3]
        simp only [List.length_cons]
        ring

/-- Claim C4, amended: an unexpected exception while resolving a pair
aborts the batch rather than being recorded per pair: if any one pair of
the cross product throws while every pair before it resolved normally,
the batch ends abruptly with exactly the earlier pairs recorded —
strictly fewer than D·T, so the throwing pair has no `Error` entry and no
remaining pair is resolved — and the stream ends with the single terminal
`error` event of the handler's catch. -/
theorem c4_abort_amended (resolve : String → String → Except String DomainResult)
    (ds₁ : List String) (d : String) (ds₂ ts₁ : List String) (t : String)
    (ts₂ : List String) (e : String)
    (hprev : ∀ d' ∈ ds₁, ∀ t' ∈ ts₁ ++ t :: ts₂, ∃ r, resolve (strTrim d') t' = .ok r)
    (hmid : ∀ t' ∈ ts₁, ∃ r, resolve (strTrim d) t' = .ok r)
    (hthrow : resolve (strTrim d) t = .error e) :
    ∃ s : BatchState,
      checkDomainsWithRateLimit resolve (ds₁ ++ d :: ds₂) (ts₁ ++ t :: ts₂) = .exn s e ∧
      s.results.length = ds₁.length * (ts₁ ++ t :: ts₂).length + ts₁.length ∧
      s.results.length < (ds₁ ++ d :: ds₂).length * (ts₁ ++ t :: ts₂).length ∧
      streamEvents resolve (ds₁ ++ d :: ds₂) (ts₁ ++ t :: ts₂) =
        s.progress.map Event.progress ++ [Event.error "Failed to check domains"] ∧
      (streamEvents resolve (ds₁ ++ d :: ds₂) (ts₁ ++ t :: ts₂)).countP
        (fun ev => ev.isTerminal) = 1 := by
  obtain ⟨s, hs, h1, h2, h3⟩ := runDomains_exn_at resolve
    ((ds₁ ++ d :: ds₂).length * (ts₁ ++ t :: ts₂).length) (ts₁ ++ t :: ts₂)
    ds₁ d ds₂ initialBatch ts₁ t ts₂ e rfl hprev hmid hthrow
  have hrun : checkDomainsWithRateLimit resolve (ds₁ ++ d :: ds₂) (ts₁ ++ t :: ts₂)
      = .exn s e := by
    rw [checkDomainsWithRateLimit]
    exact hs
  have hlen : s.results.length = ds₁.length * (ts₁ ++ t :: ts₂).length + ts₁.length := by
    rw [h1]
    simp [initialBatch]
  have hstream := streamEvents_exn resolve (ds₁ ++ d :: ds₂) (ts₁ ++ t :: ts₂) s e hrun
  refine ⟨s, hrun, hlen, ?_, hstream, ?_⟩
  · rw [hlen]
    have hts : ts₁.length < (ts₁ ++ t :: ts₂).length := by
      simp only [List.length_append, List.length_cons]
      omega
    have hds : ds₁.length + 1 ≤ (ds₁ ++ d :: ds₂).length := by
      simp only [List.length_append, List.length_cons]
      omega
    calc ds₁.length * (ts₁ ++ t :: ts₂).length + ts₁.length
        < ds₁.length * (ts₁ ++ t :: ts₂).length + (ts₁ ++ t :: ts₂).length :=
          Nat.add_lt_add_left hts _
      _ = (ds₁.length + 1) * (ts₁ ++ t :: ts₂).length := (Nat.succ_mul _ _).symm
      _ ≤ (ds₁ ++ d :: ds₂).length * (ts₁ ++ t :: ts₂).length :=
          Nat.mul_le_mul_right _ hds
  · rw [hstream]
    simp [List.countP_append, List.countP_map, Function.comp_def,
      Event.isTerminal, List.countP_eq_zero]

/-- Witness for the amended C4: the resolver throws on the second pair of
a two-domain batch; the first pair's result is kept, the batch aborts,
and the stream ends with the single terminal error event. -/
theorem c4_abort_amended_witness :
    ((∀ d' ∈ (["good"] : List String), ∀ t' ∈ ([] : List String) ++ ".com" :: [],
        ∃ r, throwingResolve (strTrim d') t' = .ok r) ∧
     (∀ t' ∈ ([] : List String), ∃ r, throwingResolve (strTrim "alpha") t' = .ok r) ∧
     throwingResolve (strTrim "alpha") ".com" = .error "unexpected failure") ∧
    (∃ s : BatchState,
      checkDomainsWithRateLimit throwingResolve (["good"] ++ "alpha" :: [])
          (([] : List String) ++ ".com" :: []) = .exn s "unexpected failure" ∧
      s.results.length = (["good"] : List String).length
          * (([] : List String) ++ ".com" :: []).length + ([] : List String).length ∧
      s.results.length < ((["good"] : List String) ++ "alpha" :: []).length
          * (([] : List String) ++ ".com" :: []).length ∧
      streamEvents throwingResolve (["good"] ++ "alpha" :: [])
          (([] : List String) ++ ".com" :: []) =
        s.progress.map Event.progress ++ [Event.error "Failed to check domains"] ∧
      (streamEvents throwingResolve (["good"] ++ "alpha" :: [])
          (([] : List String) ++ ".com" :: [])).countP (fun ev => ev.isTerminal) = 1) :=
  have hprev : ∀ d' ∈ (["good"] : List String), ∀ t' ∈ ([] : List String) ++ ".com" :: [],
      ∃ r, throwingResolve (strTrim d') t' = .ok r := by
    intro d' hd' t' ht'
    simp only [List.nil_append, List.mem_singleton] at hd' ht'
    subst hd'
    subst ht'
    exact ⟨_, rfl⟩
  have hmid : ∀ t' ∈ ([] : List String), ∃ r, throwingResolve (strTrim "alpha") t' = .ok r :=
    fun t' ht' => absurd ht' (List.not_mem_nil t')
  ⟨⟨hprev, hmid, rfl⟩,
    c4_abort_amended throwingResolve ["good"] "alpha" [] [] ".com" []
      "unexpected failure" hprev hmid rfl⟩

/-- Claim C5: if any DNS stage the cascade actually consulted reports a
successful any-record answer, the resolver returns status `Taken`. -/
theorem c5_dns_success_taken (env : Env) (domain tld : String) (stage : Stage)
    (hmem : stage ∈ (checkDomainWithFallbacks env domain tld).2)
    (hdns : stage.isDNS = true)
    (hsucc : (stageOutcome env (fullDomainOf domain tld) stage).success = true) :
    (checkDomainWithFallbacks env domain tld).1.status = .Taken := by
  cases stage with
  | httpProbe => simp [Stage.isDNS] at hdns
  | systemDNS =>
      simp only [stageOutcome] at hsucc
      simp only [checkDomainWithFallbacks] at hmem ⊢
      split_ifs at hmem ⊢ <;> simp_all
  | googleDNS =>
      simp only [stageOutcome] at hsucc
      simp only [checkDomainWithFallbacks] at hmem ⊢
      split_ifs at hmem ⊢ <;> simp_all
  | cloudflareDNS =>
      simp only [stageOutcome] at hsucc
      simp only [checkDomainWithFallbacks] at hmem ⊢
      split_ifs at hmem ⊢ <;> simp_all

/-- Witness for C5: the system stage succeeds and the pair is `Taken`. -/
theorem c5_dns_success_taken_witness :
    (Stage.systemDNS ∈ (checkDomainWithFallbacks envAllTaken "example" ".com").2 ∧
     Stage.isDNS .systemDNS = true ∧
     (stageOutcome envAllTaken (fullDomainOf "example" ".com") .systemDNS).success = true) ∧
    (checkDomainWithFallbacks envAllTaken "example" ".com").1.status = .Taken :=
  ⟨⟨by decide, by decide, by decide⟩,
    c5_dns_success_taken envAllTaken "example" ".com" .systemDNS
      (by decide) (by decide) (by decide)⟩

/-- Claim C6: whenever the cascade reaches the HTTP probe and the probe
receives any response, the resolver returns status `Taken`, overriding
the DNS not-found that led it there. -/
theorem c6_http_response_taken (env : Env) (domain tld : String)
    (hmem : Stage.httpProbe ∈ (checkDomainWithFallbacks env domain tld).2)
    (hresp : (env.httpCheck (fullDomainOf domain tld)).success = true) :
    (checkDomainWithFallbacks env domain tld).1.status = .Taken := by
  simp only [checkDomainWithFallbacks] at hmem ⊢
  split_ifs at hmem ⊢ <;> simp_all

/-- Witness for C6: DNS hides the record, the web server answers, and the
pair is `Taken`. -/
theorem c6_http_response_taken_witness :
    (Stage.httpProbe ∈ (checkDomainWithFallbacks envHiddenWeb "example" ".com").2 ∧
     (envHiddenWeb.httpCheck (fullDomainOf "example" ".com")).success = true) ∧
    (checkDomainWithFallbacks envHiddenWeb "example" ".com").1.status = .Taken :=
  ⟨⟨by decide, by decide⟩,
    c6_http_response_taken envHiddenWeb "example" ".com" (by decide) (by decide)⟩

/-- The system DNS stage is consulted on every resolution. -/
lemma system_mem_trace (env : Env) (domain tld : String) :
    Stage.systemDNS ∈ (checkDomainWithFallbacks env domain tld).2 := by
  simp only [checkDomainWithFallbacks]
  split_ifs <;> simp

/-- The Google DNS stage is consulted whenever the system stage fails. -/
lemma google_mem_trace (env : Env) (domain tld : String)
    (h : (env.systemDNS (fullDomainOf domain tld)).success = false) :
    Stage.googleDNS ∈ (checkDomainWithFallbacks env domain tld).2 := by
  simp only [checkDomainWithFallbacks]
  split_ifs <;> simp_all

/-- An error that classifies as `NotFound` contains a not-found indicator
and none of the transient indicators. -/
lemma classify_eq_notFound {e : String} (h : classify e = .NotFound) :
    strIncludes e "ETIMEOUT" = false ∧ strIncludes e "ESERVFAIL" = false ∧
    strIncludes e "ECONNREFUSED" = false ∧ strIncludes e "EAI_AGAIN" = false ∧
    (strIncludes e "ENOTFOUND" || strIncludes e "ENODATA") = true := by
  unfold classify at h
  split_ifs at h <;> simp_all

/-- Claim C7: when every DNS stage that ran failed with class `NotFound`
and the HTTP probe also fails, the status is `Available` exactly when the
probe's error carries a no-server indicator (connection refused,
name-resolution failure, or network unreachable), and `Error` for any
other probe failure (e.g. a timeout). -/
theorem c7_notfound_http (env : Env) (domain tld : String)
    (hdns : ∀ s ∈ (checkDomainWithFallbacks env domain tld).2, s.isDNS = true →
      (stageOutcome env (fullDomainOf domain tld) s).success = false ∧
      classify (errOf (stageOutcome env (fullDomainOf domain tld) s)) = .NotFound)
    (hfail : (env.httpCheck (fullDomainOf domain tld)).success = false) :
    (checkDomainWithFallbacks env domain tld).1.status =
      (if strIncludes (errOf (env.httpCheck (fullDomainOf domain tld))) "ECONNREFUSED" ||
          strIncludes (errOf (env.httpCheck (fullDomainOf domain tld))) "ENOTFOUND" ||
          strIncludes (errOf (env.httpCheck (fullDomainOf domain tld))) "ENETUNREACH"
        then Status.Available else Status.Error) := by
  obtain ⟨hsf, hsc⟩ := hdns _ (system_mem_trace env domain tld) rfl
  simp only [stageOutcome] at hsf hsc
  obtain ⟨hgf, hgc⟩ := hdns _ (google_mem_trace env domain tld hsf) rfl
  simp only [stageOutcome] at hgf hgc
  obtain ⟨-, -, -, -, hgnf⟩ := classify_eq_notFound hgc
  simp only [checkDomainWithFallbacks]
  split_ifs with h1 h2 h3 h4 h5 <;> simp_all

/-- Witness for C7: all DNS stages not-found and the probe refused gives
`Available`. -/
theorem c7_notfound_http_witness :
    ((∀ s ∈ (checkDomainWithFallbacks envAvailable "example" ".com").2, s.isDNS = true →
        (stageOutcome envAvailable (fullDomainOf "example" ".com") s).success = false ∧
        classify (errOf (stageOutcome envAvailable (fullDomainOf "example" ".com") s)) = .NotFound) ∧
     (envAvailable.httpCheck (fullDomainOf "example" ".com")).success = false) ∧
    (checkDomainWithFallbacks envAvailable "example" ".com").1.status =
      (if strIncludes (errOf (envAvailable.httpCheck (fullDomainOf "example" ".com"))) "ECONNREFUSED" ||
          strIncludes (errOf (envAvailable.httpCheck (fullDomainOf "example" ".com"))) "ENOTFOUND" ||
          strIncludes (errOf (envAvailable.httpCheck (fullDomainOf "example" ".com"))) "ENETUNREACH"
        then Status.Available else Status.Error) :=
  ⟨⟨by decide, by decide⟩,
    c7_notfound_http envAvailable "example" ".com" (by decide) (by decide)⟩

/-- Every resolver result is `Taken` or `Available` with no cause, or
`Error` with a non-empty cause string. -/
lemma result_cases (env : Env) (domain tld : String) (r : DomainResult) (tr : List Stage)
    (h : checkDomainWithFallbacks env domain tld = (r, tr)) :
    (r.status = .Taken ∧ r.error = none) ∨
    (r.status = .Available ∧ r.error = none) ∨
    (r.status = .Error ∧ ∃ c, r.error = some c ∧ c ≠ "") := by
  simp only [checkDomainWithFallbacks] at h
  split_ifs at h <;>
    (injection h with h1 h2; subst h1; simp)

/-- Claim C8: a result's cause string is present and non-empty exactly
when its status is `Error` (absent for `Available` and `Taken`), and a
result is produced for every pair of the request in every environment —
resolution never omits a pair, even when every probe fails. -/
theorem c8_cause_iff_error (env : Env) (domain tld : String) (domains tlds : List String) :
    (((checkDomainWithFallbacks env domain tld).1.status = .Error ↔
        ∃ c, (checkDomainWithFallbacks env domain tld).1.error = some c ∧ c ≠ "") ∧
      ((checkDomainWithFallbacks env domain tld).1.status ≠ .Error →
        (checkDomainWithFallbacks env domain tld).1.error = none)) ∧
    (∃ s : BatchState, runBatch env domains tlds = .ok s ∧
      s.results.length = domains.length * tlds.length) := by
  constructor
  · have h := result_cases env domain tld (checkDomainWithFallbacks env domain tld).1
      (checkDomainWithFallbacks env domain tld).2 rfl
    rcases h with ⟨hs, he⟩ | ⟨hs, he⟩ | ⟨hs, he⟩
    · rw [hs, he]
      exact ⟨iff_of_false (by simp) (by simp), fun _ => rfl⟩
    · rw [hs, he]
      exact ⟨iff_of_false (by simp) (by simp), fun _ => rfl⟩
    · rw [hs]
      exact ⟨iff_of_true rfl he, fun hne => absurd rfl hne⟩
  · refine ⟨_, runBatch_eq env domains tlds, ?_⟩
    rw [List.length_flatMap]
    simp [Function.comp_def, List.map_const', mul_comm]

/-- Witness for C8 at a concrete always-failing environment. -/
theorem c8_cause_iff_error_witness :
    (((checkDomainWithFallbacks envAllTimeout "example" ".com").1.status = .Error ↔
        ∃ c, (checkDomainWithFallbacks envAllTimeout "example" ".com").1.error = some c ∧ c ≠ "") ∧
      ((checkDomainWithFallbacks envAllTimeout "example" ".com").1.status ≠ .Error →
        (checkDomainWithFallbacks envAllTimeout "example" ".com").1.error = none)) ∧
    (∃ s : BatchState, runBatch envAllTimeout ["example"] [".com"] = .ok s ∧
      s.results.length = ["example"].length * [".com"].length) :=
  c8_cause_iff_error envAllTimeout "example" ".com" ["example"] [".com"]

/-- Claim C9: every batch's event stream contains exactly one terminal
event, it is the last event of the stream, and it is `complete` carrying
the full result collection on normal completion and `error` carrying the
fixed message when stream production threw. -/
theorem c9_single_terminal (resolve : String → String → Except String DomainResult)
    (domains tlds : List String) :
    (streamEvents resolve domains tlds).countP (fun e => e.isTerminal) = 1 ∧
    (streamEvents resolve domains tlds).getLast? =
      some (terminalOf (checkDomainsWithRateLimit resolve domains tlds)) ∧
    (terminalOf (checkDomainsWithRateLimit resolve domains tlds)).isTerminal = true := by
  rcases h : checkDomainsWithRateLimit resolve domains tlds with s | ⟨s, m⟩
  · rw [streamEvents_ok resolve domains tlds s h]
    simp [List.countP_append, List.countP_map, Function.comp_def,
      Event.isTerminal, List.getLast?_concat, List.countP_eq_zero, terminalOf]
  · rw [streamEvents_exn resolve domains tlds s m h]
    simp [List.countP_append, List.countP_map, Function.comp_def,
      Event.isTerminal, List.getLast?_concat, List.countP_eq_zero, terminalOf]

/-- Claim C10: the probed fully-qualified name joins the domain label to
the TLD with exactly one separating dot whether the TLD arrives with or
without its leading dot; every result echoes the TLD it was asked about
verbatim and the domain exactly as passed — which the batch passes
whitespace-trimmed — so the result keys of a batch are precisely the
(trimmed domain, verbatim TLD) pairs of the request. -/
theorem c10_naming :
    (∀ domain t : String, startsWithDot t = false →
      fullDomainOf domain ("." ++ t) = domain ++ "." ++ t ∧
      fullDomainOf domain t = domain ++ "." ++ t) ∧
    (∀ (env : Env) (domain tld : String), (checkDomain env domain tld).domain = domain ∧
      (checkDomain env domain tld).tld = tld) ∧
    (∀ (env : Env) (domains tlds : List String), ∃ s : BatchState,
      runBatch env domains tlds = .ok s ∧
      s.results.map (fun r => (r.domain, r.tld)) = (domains.map strTrim) ×ˢ tlds) := by
  refine ⟨?_, ?_, ?_⟩
  · intro domain t ht
    have hnorm : normalizeTld ("." ++ t) = t := by
      simp only [normalizeTld, show startsWithDot ("." ++ t) = true from rfl, if_true,
        String.drop_eq]
      rfl
    have hnorm2 : normalizeTld t = t := by
      simp [normalizeTld, ht]
    constructor
    · show _ ++ "." ++ normalizeTld ("." ++ t) = _
      rw [hnorm]
    · show _ ++ "." ++ normalizeTld t = _
      rw [hnorm2]
  · exact fun env domain tld => resolver_echo env domain tld
  · exact fun env domains tlds =>
      ⟨_, runBatch_eq env domains tlds, crossResults_keys env tlds domains⟩

/-- Witness for C10 on the TLD `com`, arriving with and without its dot. -/
theorem c10_naming_witness :
    startsWithDot "com" = false ∧
    (fullDomainOf "example" ("." ++ "com") = "example" ++ "." ++ "com" ∧
     fullDomainOf "example" "com" = "example" ++ "." ++ "com") :=
  ⟨by decide, c10_naming.1 "example" "com" (by decide)⟩

end DomainChecker
